import Mathlib

/-
Verification of the hv-24x7 performance-counter catalog parser (src/main.c).

The parser walks three variable-length record tables (schema, group, event)
inside page-aligned byte buffers.  We embed the buffers as functions
`Nat → Nat` (offset to byte value; every access is reduced mod 256, as byte
memory), pointers as byte offsets, and the C scanning loops as structurally
recursive functions on the remaining declared entry count (the loop index
increases by one on every iteration of the C for-loops, so the measure
`count - i` decreases).

Record layouts come from the catalog header file of this repository, which is
not under src/; the field offsets used below are modelled from the spec data
model (section 3) and from the known on-disk format:

  event record (fixed portion 22 bytes): length at 0 (be16), domain at 4 (u8),
  event_group_record_offs at 6 (be16), event_group_record_len at 8 (be16),
  event_counter_offs at 10 (be16), flags at 12 (be32), primary_group_ix at 16
  (be16), group_count at 18 (be16), event_name_len at 20 (be16), remainder at
  22.

  group record (fixed portion 48 bytes): length at 0 (be16), flags at 2
  (be32), domain at 6 (u8), event_group_record_offs at 8, event_group_record_len
  at 10, group_schema_ix at 12 (u8), event_count at 13 (u8), sixteen be16
  event indexes at 14..45, group_name_len at 46 (be16), remainder at 48.

  schema record (fixed portion 8 bytes): length at 0, descriptor at 2,
  version_id at 4, field_entry_count at 6, 8-byte field entries from 8.

The exact values of these constants are not load-bearing for the scanning
logic embedded from src/main.c; they fix where the trailing string chain
starts relative to the record start.
-/

namespace Hv24x7

/-- Byte access into a table buffer: buffers are functions from byte offset to
contents, reduced mod 256 since C reads `u8` cells. -/
def byte (data : Nat → Nat) (i : Nat) : Nat := data i % 256

/-- Big-endian 16-bit read at byte offset `i`, as done by `be_to_cpu` on a
`__be16` field in the source. -/
def readBE16 (data : Nat → Nat) (i : Nat) : Nat :=
  256 * byte data i + byte data (i + 1)

/-- Subtraction of 2 in `size_t` arithmetic: the source computes
`be_to_cpu(len_field) - 2` into a `size_t`, which wraps mod 2^64 when the
field is below 2. -/
def sub2 (n : Nat) : Nat := (n + (2 ^ 64 - 2)) % 2 ^ 64

/-- `PTR_ALIGN(p, 4096)` from the source: round the offset up to the next
multiple of 4096 (the buffer is modelled as page aligned). -/
def alignUp (n a : Nat) : Nat := (n + a - 1) / a * a

/-- Embeds `event_name` (src/main.c:78): returns the payload start offset
(`ev->remainder`, 22 bytes past the record start) and the payload byte count
`event_name_len - 2`. -/
def event_name (data : Nat → Nat) (s : Nat) : Nat × Nat :=
  (s + 22, sub2 (readBE16 data (s + 20)))

/-- Embeds `event_desc` (src/main.c:84): the description length word sits at
`remainder + nl - 2` (= record start + 20 + nl) and the payload follows the
name payload at `remainder + nl`. -/
def event_desc (data : Nat → Nat) (s : Nat) : Nat × Nat :=
  (s + 22 + readBE16 data (s + 20),
   sub2 (readBE16 data (s + 20 + readBE16 data (s + 20))))

/-- Embeds `event_long_desc` (src/main.c:92): the long-description length word
sits at `remainder + nl + dl - 2` and the payload at `remainder + nl + dl`. -/
def event_long_desc (data : Nat → Nat) (s : Nat) : Nat × Nat :=
  (s + 22 + readBE16 data (s + 20) + readBE16 data (s + 20 + readBE16 data (s + 20)),
   sub2 (readBE16 data
     (s + 20 + readBE16 data (s + 20) + readBE16 data (s + 20 + readBE16 data (s + 20)))))

/-- Embeds `group_name` (src/main.c:158): payload at `group->remainder`
(48 bytes past the record start), length `group_name_len - 2`. -/
def group_name (data : Nat → Nat) (g : Nat) : Nat × Nat :=
  (g + 48, sub2 (readBE16 data (g + 46)))

/-- Embeds `group_desc` (src/main.c:310). -/
def group_desc (data : Nat → Nat) (g : Nat) : Nat × Nat :=
  (g + 48 + readBE16 data (g + 46),
   sub2 (readBE16 data (g + 46 + readBE16 data (g + 46))))

/-- Embeds `event_fixed_portion_is_within` (src/main.c:103): strict comparison
`start + offsetof(remainder) < end`. -/
def event_fixed_portion_is_within (s e : Nat) : Bool := s + 22 < e

/-- Embeds `group_fixed_portion_is_within` (src/main.c:276): strict comparison
`start + sizeof(*group) < end`. -/
def group_fixed_portion_is_within (s e : Nat) : Bool := s + 48 < e

/-- Embeds `schema_fixed_portion_is_within` (src/main.c:373): strict comparison
`start + sizeof(*schema) < end`. -/
def schema_fixed_portion_is_within (s e : Nat) : Bool := s + 8 < e

/-- Embeds `event_is_within` (src/main.c:113).  Checks in source order: name
length at least 2, `start + nl` not past `end`, then the description length
word (read at `remainder + nl - 2` = start + 20 + nl), then the long
description likewise.  The comparisons use `start + cumulative` exactly as the
source does, without adding the 22-byte fixed portion. -/
def event_is_within (data : Nat → Nat) (s e : Nat) : Bool :=
  let nl := readBE16 data (s + 20)
  if nl < 2 then false
  else if e < s + nl then false
  else
    let dl := readBE16 data (s + 20 + nl)
    if dl < 2 then false
    else if e < s + nl + dl then false
    else
      let ldl := readBE16 data (s + 20 + nl + dl)
      if ldl < 2 then false
      else if e < s + nl + dl + ldl then false
      else true

/-- Embeds `group_is_within` (src/main.c:282): same shape with two string
fields, the description length word read at `remainder + nl - 2`
(= start + 46 + nl). -/
def group_is_within (data : Nat → Nat) (s e : Nat) : Bool :=
  let nl := readBE16 data (s + 46)
  if nl < 2 then false
  else if e < s + nl then false
  else
    let dl := readBE16 data (s + 46 + nl)
    if dl < 2 then false
    else if e < s + nl + dl then false
    else true

/-- Embeds `schema_is_within` (src/main.c:379): a zero field-entry count
fails; otherwise `start + field_entry_count * 8` must not be past `end`. -/
def schema_is_within (data : Nat → Nat) (s e : Nat) : Bool :=
  let c := readBE16 data (s + 6)
  if c = 0 then false
  else if e < s + c * 8 then false
  else true

/-- Diagnostics reported by the scanning loops through `warnx` plus the
unconditional missaligned `printf` marker in src/main.c.  Debug-gated
`pr_debug` chatter and the normal record output lines are not diagnostics and
are not modelled. -/
inductive Diag where
  | fixedPortionNotWithin
  | recordEndsAfterData
  | exceedsDataLength
  | exceedsOwnLength
  | misaligned
  | crossesPageBoundary
  | countMismatch
deriving DecidableEq, Repr

/-- Result of one table scan: start offsets of the records that passed all
checks and were handed on (rendered, or inserted into the group index), the
reported diagnostics in order, and the number of completed loop iterations
(each completed iteration increments the C loop index by one). -/
structure ScanOut where
  accepted : List Nat
  diags : List Diag
  iters : Nat
deriving DecidableEq, Repr

/-- Embeds the event-table loop of `main` (src/main.c:680).  First argument of
the recursion is the number of declared entries still allowed (`count - i`);
the loop index reaching the declared count is the `0` case.  Check order from
the source: cursor past buffer, declared count exhausted, fixed portion,
record length read, the zero `event_group_record_len` placeholder skip, the
misalignment printf, record end against buffer end, `event_is_within` against
the buffer end and against the record end, the page-crossing warning, then
accept.  The post-loop count-mismatch `warnx` fires whenever the loop exits
with the index short of the declared count. -/
def eventGo (data : Nat → Nat) (bytes : Nat) : Nat → Nat → ScanOut
  | 0, _ => ⟨[], [], 0⟩
  | r + 1, off =>
    if bytes ≤ off then ⟨[], [.countMismatch], 0⟩
    else if event_fixed_portion_is_within off bytes then
      let evLen := readBE16 data off
      if readBE16 data (off + 8) = 0 then
        let rest := eventGo data bytes r (off + evLen)
        ⟨rest.accepted, rest.diags, rest.iters + 1⟩
      else
        let mis : List Diag := if evLen % 16 = 0 then [] else [.misaligned]
        if bytes < off + evLen then ⟨[], mis ++ [.recordEndsAfterData, .countMismatch], 0⟩
        else if event_is_within data off bytes then
          if event_is_within data off (off + evLen) then
            let page : List Diag :=
              if event_is_within data off (alignUp off 4096) then [] else [.crossesPageBoundary]
            let rest := eventGo data bytes r (off + evLen)
            ⟨off :: rest.accepted, mis ++ page ++ rest.diags, rest.iters + 1⟩
          else ⟨[], mis ++ [.exceedsOwnLength, .countMismatch], 0⟩
        else ⟨[], mis ++ [.exceedsDataLength, .countMismatch], 0⟩
    else ⟨[], [.fixedPortionNotWithin, .countMismatch], 0⟩

/-- Embeds the group-table loop of `main` (src/main.c:614).  The fixed-portion
check runs before the cursor and count checks, exactly as in the source (the
source even repeats it after the count check; being pure it cannot change, so
it appears once here).  In the `0` case (index reached the declared count) the
source either breaks at the cursor check or at the count check, both silently,
so those two branches collapse.  Accepted group offsets are the entries stored
into `group_index` at their table position. -/
def groupGo (data : Nat → Nat) (bytes : Nat) : Nat → Nat → ScanOut
  | 0, off =>
    if group_fixed_portion_is_within off bytes then ⟨[], [], 0⟩
    else ⟨[], [.fixedPortionNotWithin], 0⟩
  | r + 1, off =>
    if group_fixed_portion_is_within off bytes then
      if bytes ≤ off then ⟨[], [], 0⟩
      else
        let len := readBE16 data off
        let mis : List Diag := if len % 16 = 0 then [] else [.misaligned]
        if bytes < off + len then ⟨[], mis ++ [.recordEndsAfterData], 0⟩
        else if group_is_within data off bytes then
          if group_is_within data off (off + len) then
            let rest := groupGo data bytes r (off + len)
            ⟨off :: rest.accepted, mis ++ rest.diags, rest.iters + 1⟩
          else ⟨[], mis ++ [.exceedsOwnLength], 0⟩
        else ⟨[], mis ++ [.exceedsDataLength], 0⟩
    else ⟨[], [.fixedPortionNotWithin], 0⟩

/-- Embeds the schema-table loop of `main` (src/main.c:545): same shape as the
group loop with the schema checks. -/
def schemaGo (data : Nat → Nat) (bytes : Nat) : Nat → Nat → ScanOut
  | 0, off =>
    if schema_fixed_portion_is_within off bytes then ⟨[], [], 0⟩
    else ⟨[], [.fixedPortionNotWithin], 0⟩
  | r + 1, off =>
    if schema_fixed_portion_is_within off bytes then
      if bytes ≤ off then ⟨[], [], 0⟩
      else
        let len := readBE16 data off
        let mis : List Diag := if len % 16 = 0 then [] else [.misaligned]
        if bytes < off + len then ⟨[], mis ++ [.recordEndsAfterData], 0⟩
        else if schema_is_within data off bytes then
          if schema_is_within data off (off + len) then
            let rest := schemaGo data bytes r (off + len)
            ⟨off :: rest.accepted, mis ++ rest.diags, rest.iters + 1⟩
          else ⟨[], mis ++ [.exceedsOwnLength], 0⟩
        else ⟨[], mis ++ [.exceedsDataLength], 0⟩
    else ⟨[], [.fixedPortionNotWithin], 0⟩

/-- Event-table scan from the start of the buffer. -/
def eventScan (data : Nat → Nat) (bytes count : Nat) : ScanOut :=
  eventGo data bytes count 0

/-- Group-table scan from the start of the buffer. -/
def groupScan (data : Nat → Nat) (bytes count : Nat) : ScanOut :=
  groupGo data bytes count 0

/-- Schema-table scan from the start of the buffer. -/
def schemaScan (data : Nat → Nat) (bytes count : Nat) : ScanOut :=
  schemaGo data bytes count 0

/-- Modelled from the spec: domain codes of hv-24x7-domains.h, which is not
under src/.  Physical chip is 1, physical core is 2, the four
virtual-processor domains are 3 to 6 (spec 4.1 and the repository README
sample output). -/
def is_physical_domain (d : Nat) : Bool := d == 1 || d == 2

/-- Modelled from the spec: `domain_to_index_string` looks up the
starting-index label of a domain code in hv-24x7-domains.h, which is not
under src/; labels are taken from the README sample output (chip, core, vcpu)
with "unknown" for unrecognized codes. -/
def domain_to_index_string (d : Nat) : String :=
  if d = 1 then "chip"
  else if d = 2 then "core"
  else if d = 3 then "vcpu"
  else if d = 4 then "vcpu"
  else if d = 5 then "vcpu"
  else if d = 6 then "vcpu"
  else "unknown"

/-- The five related domains expanded for a physical-core event
(`core_domains`, src/main.c:180). -/
def core_domains : List Nat := [2, 3, 4, 5, 6]

/-- One `domain=...,offset=...,starting_index=...,lpar=...` output line. -/
structure EventLine where
  domain : Nat
  offs : Nat
  startingIndex : String
  lpar : String
deriving DecidableEq, Repr

/-- Embeds `print_event_fmt` (src/main.c:164): the offset is
`event_counter_offs + event_group_record_offs`, the starting index is the
domain label, and lpar is the literal "0x0" for physical domains and
"sibling_guest_id" otherwise. -/
def print_event_fmt (data : Nat → Nat) (s d : Nat) : EventLine :=
  { domain := d
    offs := readBE16 data (s + 10) + readBE16 data (s + 6)
    startingIndex := domain_to_index_string d
    lpar := if is_physical_domain d then "0x0" else "sibling_guest_id" }

/-- Addressable lines plus the diagnostic flag produced for one event. -/
structure RenderOut where
  lines : List EventLine
  unsupportedDomainDiag : Bool
deriving DecidableEq, Repr

/-- Embeds `print_event_for_all_domains` (src/main.c:188): one line for a
physical-chip event, the five-domain expansion for a physical-core event,
nothing plus a diagnostic for any other domain byte. -/
def print_event_for_all_domains (data : Nat → Nat) (s : Nat) : RenderOut :=
  let d := byte data (s + 4)
  if d = 1 then ⟨[print_event_fmt data s d], false⟩
  else if d = 2 then ⟨core_domains.map (print_event_fmt data s), false⟩
  else ⟨[], true⟩

/-- Result of resolving the primary group name of an event
(src/main.c:221): the "UNKNOWN" sentinel, the name slice of a stored group,
or the value read from a never-written `group_index` slot. -/
inductive GroupNameRes where
  | unknown
  | uninitialized
  | name (payloadOff len : Nat)
deriving DecidableEq, Repr

/-- The name slice of a stored group record, as `group_name` returns it. -/
def group_name_res (data : Nat → Nat) (g : Nat) : GroupNameRes :=
  .name (group_name data g).1 (group_name data g).2

/-- Embeds the group-name resolution of `print_event` (src/main.c:221): an
index at or above the declared group count yields the "UNKNOWN" sentinel
without touching the index; below the count, the stored entry is read
(a slot the scan never stored is uninitialized memory in C). -/
def resolve_group_name (data : Nat → Nat) (index : List Nat) (count ix : Nat) :
    GroupNameRes :=
  if count ≤ ix then .unknown
  else
    match index.get? ix with
    | some g => group_name_res data g
    | none => .uninitialized

/-- Fatal decode failures: `err(...)` exits of `main` for the page-0 read and
the three table reads (src/main.c:487, 539, 609, 675). -/
inductive FatalErr where
  | shortPage0
  | schemaReadFailure
  | groupReadFailure
  | eventReadFailure
deriving DecidableEq, Repr

/-- Decoded catalog: the three scan results and the group index handed to the
event renderer (the accepted group offsets, in table position order). -/
structure Catalog where
  schema : ScanOut
  groups : ScanOut
  groupIndex : List Nat
  events : ScanOut
deriving DecidableEq, Repr

/-- A table buffer as read from absolute file position `pos`. -/
def tableSlice (file : Nat → Nat) (pos : Nat) : Nat → Nat :=
  fun i => file (pos + i)

/-- Whether `fread` of `bytes` bytes at position `pos` of a file of length
`fileLen` returns the full request (fseek past the end succeeds on a regular
file; a short read is what `err(3, "read failure")` aborts on). -/
def extent_ok (fileLen pos bytes : Nat) : Bool := bytes ≤ fileLen - pos

/-- Modelled from the spec: page-0 header field positions of
hv-24x7-catalog.h, which is not under src/ (spec section 3, CatalogHeader).
Schema triple at bytes 64-69, event triple at 72-77, group triple at 80-85;
offsets and lengths are in 4096-byte pages. -/
def schema_pos (file : Nat → Nat) : Nat := 4096 * readBE16 file 64

/-- Schema table byte length: header page count times 4096. -/
def schema_bytes (file : Nat → Nat) : Nat := 4096 * readBE16 file 66

/-- Declared schema entry count from the header. -/
def schema_count (file : Nat → Nat) : Nat := readBE16 file 68

/-- Event table absolute byte position: header page index times 4096. -/
def event_pos (file : Nat → Nat) : Nat := 4096 * readBE16 file 72

/-- Event table byte length: header page count times 4096. -/
def event_bytes (file : Nat → Nat) : Nat := 4096 * readBE16 file 74

/-- Declared event entry count from the header. -/
def event_count (file : Nat → Nat) : Nat := readBE16 file 76

/-- Group table absolute byte position: header page index times 4096. -/
def group_pos (file : Nat → Nat) : Nat := 4096 * readBE16 file 80

/-- Group table byte length: header page count times 4096. -/
def group_bytes (file : Nat → Nat) : Nat := 4096 * readBE16 file 82

/-- Declared group entry count from the header. -/
def group_count (file : Nat → Nat) : Nat := readBE16 file 84

/-- Embeds the orchestration of `main` (src/main.c:471): abort if page 0
cannot be read in full; then read and scan the schema table, the group table
(whose accepted records become the group index), and the event table, in that
fixed order, aborting on any short table read.  Allocation failures and fseek
failures on a regular file are not modelled. -/
def decode (file : Nat → Nat) (fileLen : Nat) : Except FatalErr Catalog :=
  if fileLen < 4096 then .error .shortPage0
  else if extent_ok fileLen (schema_pos file) (schema_bytes file) then
    let sres := schemaGo (tableSlice file (schema_pos file)) (schema_bytes file)
      (schema_count file) 0
    if extent_ok fileLen (group_pos file) (group_bytes file) then
      let gres := groupGo (tableSlice file (group_pos file)) (group_bytes file)
        (group_count file) 0
      if extent_ok fileLen (event_pos file) (event_bytes file) then
        let eres := eventGo (tableSlice file (event_pos file)) (event_bytes file)
          (event_count file) 0
        .ok ⟨sres, gres, gres.accepted, eres⟩
      else .error .eventReadFailure
    else .error .groupReadFailure
  else .error .schemaReadFailure

/-! Concrete tables used as inputs to closed theorems. -/

/-- All-zero bytes (also used as an all-zero file). -/
def zeroBytes : Nat → Nat := fun _ => 0

/-- A 4096-byte event table holding one record at offset 0 with
length = 32, event_group_record_len = 1, name length word = 2, description
length word = 2 (at byte 22), long-description length word = 28 (at byte 24);
all other bytes zero.  The three string fields chain to exactly the declared
length (2 + 2 + 28 = 32), so every bound check of the scan passes. -/
def eventOverreadTable : Nat → Nat := fun i =>
  if i = 1 then 32
  else if i = 9 then 1
  else if i = 21 then 2
  else if i = 23 then 2
  else if i = 25 then 28
  else 0

/-- An 80-byte group table declared to hold one record: at offset 0 a valid
record of length 64 (name length word 2 at byte 46, description length word 2
at byte 48), followed by 16 bytes of padding — fewer than the 48-byte group
fixed portion. -/
def groupPadTable : Nat → Nat := fun i =>
  if i = 1 then 64
  else if i = 47 then 2
  else if i = 49 then 2
  else 0

/-- An event record whose name length word is 0 (below 2) while
event_group_record_len is 1, so the scan reaches the string validation. -/
def shortNameTable : Nat → Nat := fun i => if i = 9 then 1 else 0

/-- An event record with length 16 and a zero event_group_record_len: a
placeholder record that the scan must skip. -/
def placeholderEventTable : Nat → Nat := fun i => if i = 1 then 16 else 0

/-- An event table whose first record has name length word 5, used to witness
the payload-length arithmetic. -/
def nameLen5Table : Nat → Nat := fun i => if i = 21 then 5 else 0

/-- An event record whose domain byte is 2 (physical core). -/
def coreDomainTable : Nat → Nat := fun i => if i = 4 then 2 else 0

/-! Helper lemmas. -/

/-- Bytes are below 256. -/
theorem byte_lt (data : Nat → Nat) (i : Nat) : byte data i < 256 :=
  Nat.mod_lt _ (by omega)

/-- A big-endian 16-bit read is below 65536. -/
theorem readBE16_lt (data : Nat → Nat) (i : Nat) : readBE16 data i < 65536 := by
  have h1 := byte_lt data i
  have h2 := byte_lt data (i + 1)
  unfold readBE16
  omega

/-- For a length word of at least 2 (and below the wrap bound), the size_t
subtraction is the plain difference. -/
theorem sub2_eq (n : Nat) (h2 : 2 ≤ n) (hlt : n < 2 ^ 64) : sub2 n = n - 2 := by
  unfold sub2
  have : n + (2 ^ 64 - 2) = (n - 2) + 2 ^ 64 := by omega
  rw [this, Nat.add_mod_right, Nat.mod_eq_of_lt (by omega)]

/-- The event loop completes at most `r` iterations. -/
theorem eventGo_iters_le (data : Nat → Nat) (bytes : Nat) :
    ∀ r off, (eventGo data bytes r off).iters ≤ r := by
  intro r
  induction r with
  | zero => intro off; simp [eventGo]
  | succ r ih =>
    intro off
    simp only [eventGo]
    split
    · simp
    · split
      · split
        · simpa using Nat.succ_le_succ (ih _)
        · split
          · simp
          · split
            · split
              · simpa using Nat.succ_le_succ (ih _)
              · simp
            · simp
      · simp

/-- The group loop completes at most `r` iterations. -/
theorem groupGo_iters_le (data : Nat → Nat) (bytes : Nat) :
    ∀ r off, (groupGo data bytes r off).iters ≤ r := by
  intro r
  induction r with
  | zero => intro off; simp only [groupGo]; split <;> simp
  | succ r ih =>
    intro off
    simp only [groupGo]
    split
    · split
      · simp
      · split
        · simp
        · split
          · split
            · simpa using Nat.succ_le_succ (ih _)
            · simp
          · simp
    · simp

/-- The schema loop completes at most `r` iterations. -/
theorem schemaGo_iters_le (data : Nat → Nat) (bytes : Nat) :
    ∀ r off, (schemaGo data bytes r off).iters ≤ r := by
  intro r
  induction r with
  | zero => intro off; simp only [schemaGo]; split <;> simp
  | succ r ih =>
    intro off
    simp only [schemaGo]
    split
    · split
      · simp
      · split
        · simp
        · split
          · split
            · simpa using Nat.succ_le_succ (ih _)
            · simp
          · simp
    · simp

/-- The group loop accepts at most `r` records. -/
theorem groupGo_accepted_le (data : Nat → Nat) (bytes : Nat) :
    ∀ r off, (groupGo data bytes r off).accepted.length ≤ r := by
  intro r
  induction r with
  | zero => intro off; simp only [groupGo]; split <;> simp
  | succ r ih =>
    intro off
    simp only [groupGo]
    split
    · split
      · simp
      · split
        · simp
        · split
          · split
            · simpa using Nat.succ_le_succ (ih _)
            · simp
          · simp
    · simp

/-- The group loop never reports a count mismatch. -/
theorem groupGo_no_mismatch (data : Nat → Nat) (bytes : Nat) :
    ∀ r off, (groupGo data bytes r off).diags.count Diag.countMismatch = 0 := by
  intro r
  induction r with
  | zero => intro off; simp only [groupGo]; split <;> simp
  | succ r ih =>
    intro off
    simp only [groupGo]
    split
    · split
      · simp
      · split
        · split <;> simp
        · split
          · split
            · simp only [List.count_append, List.count_cons]
              split <;> simp [ih]
            · split <;> simp
          · split <;> simp
    · simp

/-- The schema loop never reports a count mismatch. -/
theorem schemaGo_no_mismatch (data : Nat → Nat) (bytes : Nat) :
    ∀ r off, (schemaGo data bytes r off).diags.count Diag.countMismatch = 0 := by
  intro r
  induction r with
  | zero => intro off; simp only [schemaGo]; split <;> simp
  | succ r ih =>
    intro off
    simp only [schemaGo]
    split
    · split
      · simp
      · split
        · split <;> simp
        · split
          · split
            · simp only [List.count_append, List.count_cons]
              split <;> simp [ih]
            · split <;> simp
          · split <;> simp
    · simp

/-- A name length word below 2 makes `event_is_within` fail at its very first
check, whatever the rest of the buffer holds. -/
theorem event_is_within_false_of_short_name (data : Nat → Nat) (s e : Nat)
    (h : readBE16 data (s + 20) < 2) : event_is_within data s e = false := by
  simp only [event_is_within]
  rw [if_pos h]

/-- A name length word below 2 makes `group_is_within` fail at its very first
check, whatever the rest of the buffer holds. -/
theorem group_is_within_false_of_short_name (data : Nat → Nat) (s e : Nat)
    (h : readBE16 data (s + 46) < 2) : group_is_within data s e = false := by
  simp only [group_is_within]
  rw [if_pos h]

/-- A big-endian 16-bit read is below the size_t wrap bound. -/
theorem readBE16_lt_wrap (data : Nat → Nat) (i : Nat) :
    readBE16 data i < 2 ^ 64 :=
  lt_trans (readBE16_lt data i) (by norm_num)

/-- C1: claimed — for every accepted record, start plus declared length stays
inside the table and every extracted string tail ends inside both the table
end and the record end, with no read past a checked boundary.  The code
violates this: `event_is_within` compares the cumulative string-chain offsets
`nl`, `nl + dl`, `nl + dl + ldl` against the boundary measured from the
RECORD START, while the string fields actually live 20 bytes further (after
the 22-byte fixed portion).  On `eventOverreadTable` the single record
(declared length 32, string chain 2 + 2 + 28 = 32) passes every check and is
accepted by the scan, yet its extracted long-description field ends at byte
52 — twenty bytes past the record end at byte 32. -/
theorem c1_accepted_event_tail_exceeds_declared_end :
    (eventScan eventOverreadTable 4096 1).accepted = [0] ∧
    readBE16 eventOverreadTable 0 = 32 ∧
    event_is_within eventOverreadTable 0 4096 = true ∧
    event_is_within eventOverreadTable 0 (0 + 32) = true ∧
    (event_long_desc eventOverreadTable 0).1 +
      (event_long_desc eventOverreadTable 0).2 = 52 ∧
    readBE16 eventOverreadTable 0 <
      (event_long_desc eventOverreadTable 0).1 +
        (event_long_desc eventOverreadTable 0).2 := by
  decide

/-- C5: an event record with a zero event_group_record_len is skipped without
any diagnostic or rendering, and the cursor still advances by the length
field of the record itself while the loop index advances by one. -/
theorem c5_zero_egrl_placeholder (data : Nat → Nat) (bytes r off : Nat)
    (hoff : off < bytes)
    (hfix : event_fixed_portion_is_within off bytes = true)
    (hegrl : readBE16 data (off + 8) = 0) :
    (eventGo data bytes (r + 1) off).accepted =
      (eventGo data bytes r (off + readBE16 data off)).accepted ∧
    (eventGo data bytes (r + 1) off).diags =
      (eventGo data bytes r (off + readBE16 data off)).diags ∧
    (eventGo data bytes (r + 1) off).iters =
      (eventGo data bytes r (off + readBE16 data off)).iters + 1 := by
  simp [eventGo, if_neg (Nat.not_le.mpr hoff), hfix, if_pos hegrl]

/-- Witness for C5 on `placeholderEventTable`. -/
theorem c5_zero_egrl_placeholder_witness :
    (eventGo placeholderEventTable 64 1 0).accepted =
      (eventGo placeholderEventTable 64 0 (0 + readBE16 placeholderEventTable 0)).accepted ∧
    (eventGo placeholderEventTable 64 1 0).diags =
      (eventGo placeholderEventTable 64 0 (0 + readBE16 placeholderEventTable 0)).diags ∧
    (eventGo placeholderEventTable 64 1 0).iters =
      (eventGo placeholderEventTable 64 0 (0 + readBE16 placeholderEventTable 0)).iters + 1 :=
  c5_zero_egrl_placeholder placeholderEventTable 64 0 0 (by decide) (by decide)
    (by decide)

/-- C6 counterexample, both halves of the claim on the group scan.  First
half: on the 80-byte table with 1 declared entry the scan accepts all 1
declared record (one completed iteration, so the loop index reached the
declared count) and the cursor stands at byte 64 with 16 padding bytes
remaining — yet the scan reports a fixed-portion range error, because the
source checks the fixed portion before checking the loop index against the
declared count; the claim says this expected terminal state stops without
reporting any error.  Second half: on the same record with the table cut to
64 bytes and 2 declared entries, the buffer end is reached with the declared
count unexhausted, and the scan reports a fixed-portion error but no count
mismatch; the claim says a count mismatch is reported. -/
theorem c6_counterexample_padding_reported_as_error :
    groupScan groupPadTable 80 1 = ⟨[0], [.fixedPortionNotWithin], 1⟩ ∧
    groupScan groupPadTable 64 2 = ⟨[0], [.fixedPortionNotWithin], 1⟩ ∧
    (groupScan groupPadTable 64 2).diags.count Diag.countMismatch = 0 := by
  decide

/-- C6 amended: the event scan stops silently once the declared count is
exhausted and reports a count mismatch when the buffer end is reached first;
the group and schema scans stop silently at the declared count only when more
than a fixed-portion worth of bytes remains past the cursor (otherwise they
report a fixed-portion error even in this expected terminal state), and they
never report a count mismatch. -/
theorem c6_amended_terminal_states (data : Nat → Nat) (bytes r off k : Nat) :
    eventGo data bytes 0 off = ⟨[], [], 0⟩ ∧
    eventGo data bytes (r + 1) (bytes + k) = ⟨[], [.countMismatch], 0⟩ ∧
    (groupGo data bytes 0 off =
      if off + 48 < bytes then ⟨[], [], 0⟩ else ⟨[], [.fixedPortionNotWithin], 0⟩) ∧
    (schemaGo data bytes 0 off =
      if off + 8 < bytes then ⟨[], [], 0⟩ else ⟨[], [.fixedPortionNotWithin], 0⟩) ∧
    (groupGo data bytes r off).diags.count Diag.countMismatch = 0 ∧
    (schemaGo data bytes r off).diags.count Diag.countMismatch = 0 := by
  refine ⟨rfl, ?_, ?_, ?_, groupGo_no_mismatch data bytes r off,
    schemaGo_no_mismatch data bytes r off⟩
  · simp [eventGo, Nat.le_add_right]
  · by_cases h : off + 48 < bytes <;>
      simp [groupGo, group_fixed_portion_is_within, h]
  · by_cases h : off + 8 < bytes <;>
      simp [schemaGo, schema_fixed_portion_is_within, h]

/-- C7: a group or event record whose name length word is below 2 is rejected
by the validator at its first check — for EVERY buffer with that length word,
so no later field influences the outcome — and the scan accepts nothing from
that point on, so none of the record fields reaches the renderer. -/
theorem c7_short_name_rejected (data : Nat → Nat) (bytes r off e : Nat) :
    (readBE16 data (off + 20) < 2 → event_is_within data off e = false) ∧
    (readBE16 data (off + 46) < 2 → group_is_within data off e = false) ∧
    (readBE16 data (off + 20) < 2 → readBE16 data (off + 8) ≠ 0 →
      (eventGo data bytes (r + 1) off).accepted = []) ∧
    (readBE16 data (off + 46) < 2 →
      (groupGo data bytes (r + 1) off).accepted = []) := by
  refine ⟨event_is_within_false_of_short_name data off e,
    group_is_within_false_of_short_name data off e, ?_, ?_⟩
  · intro h hegrl
    have hw := event_is_within_false_of_short_name data off bytes h
    by_cases h1 : bytes ≤ off
    · simp [eventGo, h1]
    · by_cases h2 : event_fixed_portion_is_within off bytes = true
      · by_cases h3 : bytes < off + readBE16 data off
        · simp [eventGo, h1, h2, hegrl, h3]
        · simp [eventGo, h1, h2, hegrl, h3, hw]
      · simp [eventGo, h1, h2]
  · intro h
    have hw := group_is_within_false_of_short_name data off bytes h
    by_cases h2 : group_fixed_portion_is_within off bytes = true
    · by_cases h1 : bytes ≤ off
      · simp [groupGo, h1, h2]
      · by_cases h3 : bytes < off + readBE16 data off
        · simp [groupGo, h1, h2, h3]
        · simp [groupGo, h1, h2, h3, hw]
    · simp [groupGo, h2]

/-- Witness for C7 on `shortNameTable`. -/
theorem c7_short_name_rejected_witness :
    event_is_within shortNameTable 0 0 = false ∧
    group_is_within shortNameTable 0 0 = false ∧
    (eventGo shortNameTable 64 1 0).accepted = [] ∧
    (groupGo shortNameTable 64 1 0).accepted = [] :=
  ⟨(c7_short_name_rejected shortNameTable 64 0 0 0).1 (by decide),
   (c7_short_name_rejected shortNameTable 64 0 0 0).2.1 (by decide),
   (c7_short_name_rejected shortNameTable 64 0 0 0).2.2.1 (by decide) (by decide),
   (c7_short_name_rejected shortNameTable 64 0 0 0).2.2.2 (by decide)⟩

/-- C9: every scan loop terminates — it completes at most as many iterations
as there are declared entries left (the loop index increases by one on every
iteration, including the zero-length skip that leaves the cursor unchanged),
and it exits at once when the index reaches the declared count or the cursor
reaches the table byte length. -/
theorem c9_scan_termination (data : Nat → Nat) (bytes r off k : Nat) :
    (eventGo data bytes r off).iters ≤ r ∧
    (groupGo data bytes r off).iters ≤ r ∧
    (schemaGo data bytes r off).iters ≤ r ∧
    (eventGo data bytes 0 off).iters = 0 ∧
    (groupGo data bytes 0 off).iters = 0 ∧
    (schemaGo data bytes 0 off).iters = 0 ∧
    (eventGo data bytes r (bytes + k)).iters = 0 ∧
    (groupGo data bytes r (bytes + k)).iters = 0 ∧
    (schemaGo data bytes r (bytes + k)).iters = 0 := by
  refine ⟨eventGo_iters_le data bytes r off, groupGo_iters_le data bytes r off,
    schemaGo_iters_le data bytes r off, ?_, ?_, ?_, ?_, ?_, ?_⟩
  · rfl
  · simp only [groupGo]; split <;> rfl
  · simp only [schemaGo]; split <;> rfl
  · cases r with
    | zero => rfl
    | succ r => simp [eventGo, Nat.le_add_right]
  · have h : ¬ (bytes + k + 48 < bytes) := by omega
    cases r with
    | zero => simp [groupGo, group_fixed_portion_is_within, h]
    | succ r => simp [groupGo, group_fixed_portion_is_within, h]
  · have h : ¬ (bytes + k + 8 < bytes) := by omega
    cases r with
    | zero => simp [schemaGo, schema_fixed_portion_is_within, h]
    | succ r => simp [schemaGo, schema_fixed_portion_is_within, h]

/-- C10: every fixed-portion check is a strict comparison, so a record whose
fixed portion ends exactly at the boundary is rejected, and a table whose
final record fixed portion abuts the buffer end flush gets a fixed-portion
range report from the scan. -/
theorem c10_fixed_portion_check_is_strict (data : Nat → Nat)
    (bytes r s e : Nat) :
    (event_fixed_portion_is_within s e = true ↔ s + 22 < e) ∧
    (group_fixed_portion_is_within s e = true ↔ s + 48 < e) ∧
    (schema_fixed_portion_is_within s e = true ↔ s + 8 < e) ∧
    event_fixed_portion_is_within s (s + 22) = false ∧
    group_fixed_portion_is_within s (s + 48) = false ∧
    schema_fixed_portion_is_within s (s + 8) = false ∧
    (s + 22 = bytes →
      eventGo data bytes (r + 1) s = ⟨[], [.fixedPortionNotWithin, .countMismatch], 0⟩) ∧
    (s + 48 = bytes →
      groupGo data bytes (r + 1) s = ⟨[], [.fixedPortionNotWithin], 0⟩) ∧
    (s + 8 = bytes →
      schemaGo data bytes (r + 1) s = ⟨[], [.fixedPortionNotWithin], 0⟩) := by
  refine ⟨by simp [event_fixed_portion_is_within],
    by simp [group_fixed_portion_is_within],
    by simp [schema_fixed_portion_is_within],
    by simp [event_fixed_portion_is_within],
    by simp [group_fixed_portion_is_within],
    by simp [schema_fixed_portion_is_within], ?_, ?_, ?_⟩
  · intro hb
    have h1 : ¬ (bytes ≤ s) := by omega
    have h2 : ¬ (s + 22 < bytes) := by omega
    simp [eventGo, event_fixed_portion_is_within, h1, h2]
  · intro hb
    have h2 : ¬ (s + 48 < bytes) := by omega
    simp [groupGo, group_fixed_portion_is_within, h2]
  · intro hb
    have h2 : ¬ (s + 8 < bytes) := by omega
    simp [schemaGo, schema_fixed_portion_is_within, h2]

/-- Witness for C10 at a boundary-flush record. -/
theorem c10_fixed_portion_check_is_strict_witness :
    eventGo zeroBytes 22 1 0 = ⟨[], [.fixedPortionNotWithin, .countMismatch], 0⟩ ∧
    groupGo zeroBytes 48 1 0 = ⟨[], [.fixedPortionNotWithin], 0⟩ ∧
    schemaGo zeroBytes 8 1 0 = ⟨[], [.fixedPortionNotWithin], 0⟩ :=
  ⟨(c10_fixed_portion_check_is_strict zeroBytes 22 0 0 0).2.2.2.2.2.2.1 (by decide),
   (c10_fixed_portion_check_is_strict zeroBytes 48 0 0 0).2.2.2.2.2.2.2.1 (by decide),
   (c10_fixed_portion_check_is_strict zeroBytes 8 0 0 0).2.2.2.2.2.2.2.2 (by decide)⟩

/-- C2: the length-prefixed string reader decodes a big-endian 16-bit word L;
a record with any string length word below 2 is rejected by the validator
(equivalently, a validated record has all its length words at least 2); the
payload is L - 2 bytes starting right after the 2-byte length word; and the
absolute end offset of each field (its length-word offset plus L) is where
the next chained length word is read.  Stated for the three event fields and
the two group fields. -/
theorem c2_length_prefixed_reader (data : Nat → Nat) (s e : Nat) :
    (event_is_within data s e = true →
      2 ≤ readBE16 data (s + 20) ∧
      2 ≤ readBE16 data (s + 20 + readBE16 data (s + 20)) ∧
      2 ≤ readBE16 data (s + 20 + readBE16 data (s + 20) +
            readBE16 data (s + 20 + readBE16 data (s + 20)))) ∧
    (group_is_within data s e = true →
      2 ≤ readBE16 data (s + 46) ∧
      2 ≤ readBE16 data (s + 46 + readBE16 data (s + 46))) ∧
    (2 ≤ readBE16 data (s + 20) →
      (event_name data s).2 = readBE16 data (s + 20) - 2) ∧
    (2 ≤ readBE16 data (s + 20 + readBE16 data (s + 20)) →
      (event_desc data s).2 = readBE16 data (s + 20 + readBE16 data (s + 20)) - 2) ∧
    (2 ≤ readBE16 data (s + 20 + readBE16 data (s + 20) +
           readBE16 data (s + 20 + readBE16 data (s + 20))) →
      (event_long_desc data s).2 =
        readBE16 data (s + 20 + readBE16 data (s + 20) +
          readBE16 data (s + 20 + readBE16 data (s + 20))) - 2) ∧
    (2 ≤ readBE16 data (s + 46) →
      (group_name data s).2 = readBE16 data (s + 46) - 2) ∧
    (2 ≤ readBE16 data (s + 46 + readBE16 data (s + 46)) →
      (group_desc data s).2 = readBE16 data (s + 46 + readBE16 data (s + 46)) - 2) ∧
    (event_name data s).1 = s + 20 + 2 ∧
    (event_desc data s).1 = s + 20 + readBE16 data (s + 20) + 2 ∧
    (event_long_desc data s).1 =
      s + 20 + readBE16 data (s + 20) +
        readBE16 data (s + 20 + readBE16 data (s + 20)) + 2 ∧
    (group_name data s).1 = s + 46 + 2 ∧
    (group_desc data s).1 = s + 46 + readBE16 data (s + 46) + 2 := by
  refine ⟨?_, ?_, ?_, ?_, ?_, ?_, ?_, ?_, ?_, ?_, ?_, ?_⟩
  · intro hw
    simp only [event_is_within] at hw
    split_ifs at hw with a1 a2 a3 a4 a5 a6
    exact ⟨by omega, by omega, by omega⟩
  · intro hw
    simp only [group_is_within] at hw
    split_ifs at hw with a1 a2 a3 a4
    exact ⟨by omega, by omega⟩
  · intro h
    exact sub2_eq _ h (readBE16_lt_wrap data _)
  · intro h
    exact sub2_eq _ h (readBE16_lt_wrap data _)
  · intro h
    exact sub2_eq _ h (readBE16_lt_wrap data _)
  · intro h
    exact sub2_eq _ h (readBE16_lt_wrap data _)
  · intro h
    exact sub2_eq _ h (readBE16_lt_wrap data _)
  · simp only [event_name]
  · simp only [event_desc]
    omega
  · simp only [event_long_desc]
    omega
  · simp only [group_name]
  · simp only [group_desc]
    omega

/-- Witness for C2: the accepted record of `eventOverreadTable` has all three
length words at least 2, and a name length word of 5 yields a 3-byte
payload. -/
theorem c2_length_prefixed_reader_witness :
    (2 ≤ readBE16 eventOverreadTable (0 + 20) ∧
     2 ≤ readBE16 eventOverreadTable (0 + 20 + readBE16 eventOverreadTable (0 + 20)) ∧
     2 ≤ readBE16 eventOverreadTable (0 + 20 + readBE16 eventOverreadTable (0 + 20) +
           readBE16 eventOverreadTable (0 + 20 + readBE16 eventOverreadTable (0 + 20)))) ∧
    (event_name nameLen5Table 0).2 = readBE16 nameLen5Table (0 + 20) - 2 :=
  ⟨(c2_length_prefixed_reader eventOverreadTable 0 4096).1 (by decide),
   (c2_length_prefixed_reader nameLen5Table 0 0).2.2.1 (by decide)⟩

/-- C3: a physical-chip event renders exactly one addressable line, a
physical-core event renders exactly the five related-domain lines 2..6, any
other domain byte renders nothing and raises the diagnostic; every rendered
line carries the counter offset sum, the starting-index label of its own
domain, and the current-partition lpar sentinel exactly for physical
domains (the sibling-partition sentinel otherwise). -/
theorem c3_renderer_domain_expansion (data : Nat → Nat) (s : Nat) :
    ((print_event_for_all_domains data s).lines.length =
      if byte data (s + 4) = 1 then 1
      else if byte data (s + 4) = 2 then 5 else 0) ∧
    ((print_event_for_all_domains data s).lines.map EventLine.domain =
      if byte data (s + 4) = 1 then [1]
      else if byte data (s + 4) = 2 then [2, 3, 4, 5, 6] else []) ∧
    ((print_event_for_all_domains data s).unsupportedDomainDiag = true ↔
      (byte data (s + 4) ≠ 1 ∧ byte data (s + 4) ≠ 2)) ∧
    (∀ l ∈ (print_event_for_all_domains data s).lines,
      l.offs = readBE16 data (s + 10) + readBE16 data (s + 6) ∧
      l.startingIndex = domain_to_index_string l.domain ∧
      (l.lpar = "0x0" ↔ is_physical_domain l.domain = true) ∧
      (l.lpar = "sibling_guest_id" ↔ is_physical_domain l.domain = false)) := by
  by_cases h1 : byte data (s + 4) = 1
  · refine ⟨by simp [print_event_for_all_domains, h1],
      by simp [print_event_for_all_domains, h1, print_event_fmt],
      by simp [print_event_for_all_domains, h1], ?_⟩
    intro l hl
    simp [print_event_for_all_domains, h1] at hl
    subst hl
    exact ⟨rfl, rfl, by simp [print_event_fmt, is_physical_domain],
      by simp [print_event_fmt, is_physical_domain]⟩
  · by_cases h2 : byte data (s + 4) = 2
    · refine ⟨by simp [print_event_for_all_domains, h1, h2, core_domains],
        by simp [print_event_for_all_domains, h1, h2, core_domains, print_event_fmt],
        by simp [print_event_for_all_domains, h1, h2], ?_⟩
      intro l hl
      simp [print_event_for_all_domains, h1, h2, core_domains] at hl
      rcases hl with rfl | rfl | rfl | rfl | rfl <;>
        exact ⟨rfl, rfl, by simp [print_event_fmt, is_physical_domain],
          by simp [print_event_fmt, is_physical_domain]⟩
    · refine ⟨by simp [print_event_for_all_domains, h1, h2],
        by simp [print_event_for_all_domains, h1, h2],
        by simp [print_event_for_all_domains, h1, h2], ?_⟩
      intro l hl
      simp [print_event_for_all_domains, h1, h2] at hl

/-- Witness for C3 on a physical-core event. -/
theorem c3_renderer_domain_expansion_witness :
    (print_event_for_all_domains coreDomainTable 0).lines.length = 5 ∧
    ((print_event_fmt coreDomainTable 0 6).lpar = "0x0" ↔
      is_physical_domain 6 = true) :=
  ⟨(c3_renderer_domain_expansion coreDomainTable 0).1,
   ((c3_renderer_domain_expansion coreDomainTable 0).2.2.2
      (print_event_fmt coreDomainTable 0 6) (by decide)).2.2.1⟩

/-- C4: the group scan accepts at most the declared entry count, each
accepted record is stored at its table position (resolving position j of the
index yields the name slice of the j-th accepted record), and resolving any
index at or above the declared count yields the UNKNOWN sentinel without
touching the index. -/
theorem c4_group_index_resolution (data : Nat → Nat) (bytes count ix j g : Nat) :
    (groupScan data bytes count).accepted.length ≤ count ∧
    (count ≤ ix →
      resolve_group_name data (groupScan data bytes count).accepted count ix =
        .unknown) ∧
    ((groupScan data bytes count).accepted.get? j = some g →
      resolve_group_name data (groupScan data bytes count).accepted count j =
        group_name_res data g) := by
  refine ⟨groupGo_accepted_le data bytes count 0, ?_, ?_⟩
  · intro hix
    simp only [resolve_group_name, if_pos hix]
  · intro hj
    have hlt : j < (groupScan data bytes count).accepted.length :=
      (List.get?_eq_some.mp hj).1
    have hle := groupGo_accepted_le data bytes count 0
    have hc : ¬ count ≤ j := by
      simp only [groupScan] at hlt
      omega
    rw [resolve_group_name, if_neg hc, hj]

/-- Witness for C4 on `groupPadTable`. -/
theorem c4_group_index_resolution_witness :
    (groupScan groupPadTable 80 1).accepted.length ≤ 1 ∧
    resolve_group_name groupPadTable (groupScan groupPadTable 80 1).accepted 1 3 =
      .unknown ∧
    resolve_group_name groupPadTable (groupScan groupPadTable 80 1).accepted 1 0 =
      group_name_res groupPadTable 0 :=
  ⟨(c4_group_index_resolution groupPadTable 80 1 3 0 0).1,
   (c4_group_index_resolution groupPadTable 80 1 3 0 0).2.1 (by decide),
   (c4_group_index_resolution groupPadTable 80 1 3 0 0).2.2 (by decide)⟩

/-- C8: decoding aborts when page 0 cannot be read in full (fewer than 4096
bytes of input); each table lives at byte position page-index times 4096 with
byte length page-count times 4096; a short read of any table extent aborts;
and on success the catalog is the three scans in the fixed order schema,
group, event, with the accepted group offsets as the group index handed to
the event renderer. -/
theorem c8_decode_geometry_and_fatal_errors (file : Nat → Nat) (n : Nat) :
    (n < 4096 → decode file n = .error .shortPage0) ∧
    (4096 ≤ n → extent_ok n (schema_pos file) (schema_bytes file) = false →
      decode file n = .error .schemaReadFailure) ∧
    (4096 ≤ n → extent_ok n (schema_pos file) (schema_bytes file) = true →
      extent_ok n (group_pos file) (group_bytes file) = false →
      decode file n = .error .groupReadFailure) ∧
    (4096 ≤ n → extent_ok n (schema_pos file) (schema_bytes file) = true →
      extent_ok n (group_pos file) (group_bytes file) = true →
      extent_ok n (event_pos file) (event_bytes file) = false →
      decode file n = .error .eventReadFailure) ∧
    (4096 ≤ n → extent_ok n (schema_pos file) (schema_bytes file) = true →
      extent_ok n (group_pos file) (group_bytes file) = true →
      extent_ok n (event_pos file) (event_bytes file) = true →
      decode file n = .ok
        ⟨schemaGo (tableSlice file (schema_pos file)) (schema_bytes file)
           (schema_count file) 0,
         groupGo (tableSlice file (group_pos file)) (group_bytes file)
           (group_count file) 0,
         (groupGo (tableSlice file (group_pos file)) (group_bytes file)
           (group_count file) 0).accepted,
         eventGo (tableSlice file (event_pos file)) (event_bytes file)
           (event_count file) 0⟩) := by
  refine ⟨?_, ?_, ?_, ?_, ?_⟩
  · intro h
    simp [decode, h]
  · intro h hs
    simp [decode, Nat.not_lt.mpr h, hs]
  · intro h hs hg
    simp [decode, Nat.not_lt.mpr h, hs, hg]
  · intro h hs hg he
    simp [decode, Nat.not_lt.mpr h, hs, hg, he]
  · intro h hs hg he
    simp [decode, Nat.not_lt.mpr h, hs, hg, he]

/-- Witness for C8: an input short of one page aborts; an all-zero page
decodes with every table geometry equal to zero. -/
theorem c8_decode_geometry_and_fatal_errors_witness :
    decode zeroBytes 100 = .error .shortPage0 ∧
    decode zeroBytes 4096 = .ok
      ⟨schemaGo (tableSlice zeroBytes (schema_pos zeroBytes)) (schema_bytes zeroBytes)
         (schema_count zeroBytes) 0,
       groupGo (tableSlice zeroBytes (group_pos zeroBytes)) (group_bytes zeroBytes)
         (group_count zeroBytes) 0,
       (groupGo (tableSlice zeroBytes (group_pos zeroBytes)) (group_bytes zeroBytes)
         (group_count zeroBytes) 0).accepted,
       eventGo (tableSlice zeroBytes (event_pos zeroBytes)) (event_bytes zeroBytes)
         (event_count zeroBytes) 0⟩ :=
  ⟨(c8_decode_geometry_and_fatal_errors zeroBytes 100).1 (by norm_num),
   (c8_decode_geometry_and_fatal_errors zeroBytes 4096).2.2.2.2 (by norm_num)
     (by decide) (by decide) (by decide)⟩

end Hv24x7
